import Mathlib

/-!
Shallow embedding of the order-lifecycle tracker and validation layer of the
hyperliquid_bot repository (src/src/exchange/orders.py and
src/src/utils/validation.py), together with proofs settling the frozen
claims about its specification.

Python `decimal.Decimal` values are modelled as a sign, a list of coefficient
digits (most significant first) and an integer exponent, exactly the
`(sign, digits, exponent)` triple of `Decimal.as_tuple()`.  The constructor
`Decimal(string)` and `str(Decimal)` are embedded faithfully for finite
numerals (the only values this program produces): the constructor strips
leading zeros of the coefficient and `str` follows CPython's algorithm,
switching to scientific notation when the exponent is positive or the
adjusted exponent drops below -6.
-/

/-- The character `0`..`9` for a digit value below ten. -/
def digitChar (n : Nat) : Char := Char.ofNat (48 + n)

/-- Digit value of an ASCII digit character. -/
def charVal (c : Char) : Nat := c.toNat - 48

/-- ASCII digit test. -/
def isDigitCh (c : Char) : Bool := 48 ≤ c.toNat && c.toNat ≤ 57

/-- Scan a maximal run of ASCII digits; return their values and the rest. -/
def takeDigits : List Char → List Nat × List Char
  | [] => ([], [])
  | c :: cs =>
    if isDigitCh c then
      (charVal c :: (takeDigits cs).1, (takeDigits cs).2)
    else ([], c :: cs)

/-- Value of a big-endian digit list. -/
def digitsVal (l : List Nat) : Nat := l.foldl (fun a d => a * 10 + d) 0

/-- Little-endian base-10 digits of `n`, with explicit fuel (structural). -/
def natDigitsRevAux : Nat → Nat → List Nat
  | 0, _ => []
  | fuel + 1, n => if n = 0 then [] else n % 10 :: natDigitsRevAux fuel (n / 10)

/-- Big-endian base-10 digits of `n` (empty for `n = 0`). -/
def bigDigits (n : Nat) : List Nat := (natDigitsRevAux n n).reverse

/-- Coefficient normalisation performed by the `Decimal` constructor:
leading zeros are stripped; an all-zero coefficient becomes the single
digit `0`. -/
def normDigits (l : List Nat) : List Nat :=
  match l.dropWhile (fun d => d == 0) with
  | [] => [0]
  | r => r

/-- Python `decimal.Decimal`, restricted to finite values: the
`(sign, digits, exponent)` triple of `as_tuple()`. -/
structure Decimal where
  sign : Bool
  digits : List Nat
  exp : Int
deriving DecidableEq, Repr

/-- Representation invariant of every `Decimal` produced by the constructor:
digits below ten, coefficient free of leading zeros (canonically `[0]`
when zero). -/
def Decimal.Wf (d : Decimal) : Prop :=
  (∀ x ∈ d.digits, x < 10) ∧ normDigits d.digits = d.digits

/-- `Decimal(str)` of `0`. -/
def decZero : Decimal := ⟨false, [0], 0⟩

/-- The unsigned part of CPython `Decimal.__str__` for finite values
(`_pystr` with `dotplace = leftdigits` in the positional regime and
`dotplace = 1` in the scientific regime). -/
def Decimal.pyStrBody (d : Decimal) : List Char :=
  let ds := d.digits.map digitChar
  let leftdigits : Int := d.exp + d.digits.length
  if d.exp ≤ 0 ∧ -6 < leftdigits then
    if d.exp = 0 then ds
    else if 0 < leftdigits then
      ds.take leftdigits.toNat ++ Char.ofNat 46 :: ds.drop leftdigits.toNat
    else
      Char.ofNat 48 :: Char.ofNat 46 :: List.replicate (-leftdigits).toNat (Char.ofNat 48) ++ ds
  else
    let expNum : Int := leftdigits - 1
    let expChs : List Char :=
      (if expNum < 0 then [Char.ofNat 45] else [Char.ofNat 43]) ++ (bigDigits expNum.natAbs).map digitChar
    if d.digits.length = 1 then ds ++ Char.ofNat 69 :: expChs
    else ds.take 1 ++ Char.ofNat 46 :: ds.drop 1 ++ Char.ofNat 69 :: expChs

/-- CPython `Decimal.__str__` for finite values: sign then unsigned body. -/
def Decimal.pyStr (d : Decimal) : List Char :=
  (if d.sign then [Char.ofNat 45] else []) ++ d.pyStrBody

/-- Split an optional leading sign (`-` sets the sign flag, `+` is skipped). -/
def splitSign (s : List Char) : Bool × List Char :=
  match s with
  | [] => (false, [])
  | c :: r =>
    if c = Char.ofNat 45 then (true, r)
    else if c = Char.ofNat 43 then (false, r)
    else (false, c :: r)

/-- Parse the exponent part after `E`/`e`: optional sign then digits, end. -/
def parseExpPart (r : List Char) : Option Int :=
  let p := splitSign r
  let q := takeDigits p.2
  if q.1 = [] then none
  else if q.2 = [] then some ((if p.1 then -1 else 1) * (digitsVal q.1 : Int))
  else none

/-- Parse the unsigned body of a decimal numeral: coefficient digits and
exponent, following the grammar accepted by the `Decimal` constructor
(`digits [. digits] [Ee exponent]`, at least one coefficient digit). -/
def parseAfterSign (s1 : List Char) : Option (List Nat × Int) :=
  let p := takeDigits s1
  match p.2 with
  | [] => if p.1 = [] then none else some (p.1, 0)
  | c :: r =>
    if c = Char.ofNat 46 then
      let q := takeDigits r
      if p.1 = [] ∧ q.1 = [] then none
      else
        match q.2 with
        | [] => some (p.1 ++ q.1, -(q.1.length : Int))
        | c2 :: r2 =>
          if c2 = Char.ofNat 69 ∨ c2 = Char.ofNat 101 then
            (parseExpPart r2).map (fun e => (p.1 ++ q.1, e - q.1.length))
          else none
    else if c = Char.ofNat 69 ∨ c = Char.ofNat 101 then
      if p.1 = [] then none else (parseExpPart r).map (fun e => (p.1, e))
    else none

/-- The `Decimal(string)` constructor, for finite numerals without padding:
sign, coefficient and exponent, with the coefficient normalised. -/
def pyDecimalParse (s : List Char) : Option Decimal :=
  let p := splitSign s
  (parseAfterSign p.2).map (fun q => ⟨p.1, normDigits q.1, q.2⟩)

/-- Integer value of `d` scaled by `10 ^ (-e)`, meaningful when `e ≤ d.exp`. -/
def Decimal.scaled (d : Decimal) (e : Int) : Int :=
  (if d.sign then -1 else 1) * (digitsVal d.digits : Int) * 10 ^ (d.exp - e).toNat

/-- Rational value of a finite `Decimal`. -/
def Decimal.toRat (d : Decimal) : ℚ :=
  (if d.sign then -1 else 1) * (digitsVal d.digits : ℚ) * (10 : ℚ) ^ d.exp

/-- Python `<=` on finite decimals: value comparison at a common exponent. -/
def Decimal.ble (a b : Decimal) : Bool :=
  a.scaled (min a.exp b.exp) ≤ b.scaled (min a.exp b.exp)

/-- Python `<` on finite decimals. -/
def Decimal.blt (a b : Decimal) : Bool :=
  a.scaled (min a.exp b.exp) < b.scaled (min a.exp b.exp)

/-- Python truthiness of a `Decimal`: `bool(d)` is `False` exactly on zero. -/
def Decimal.pyBool (d : Decimal) : Bool := digitsVal d.digits ≠ 0

/-!
 ## Exceptions

`PyErr` models the exceptions this code can raise.  `validationError` is the
repository's `ValidationError(msg)`; `valueError` is Python's built-in
`ValueError`; `invalidOperation` is `decimal.InvalidOperation`, raised by the
`Decimal` constructor on an unparseable string.  `InvalidOperation` derives
from `ArithmeticError`, not from `ValueError`, so an
`except (TypeError, ValueError)` clause does not catch it.
-/

inductive PyErr where
  | validationError (msg : String)
  | valueError (msg : String)
  | invalidOperation
deriving DecidableEq, Repr

/-!
 ## Validation layer (src/src/utils/validation.py)

The two regex checks use `re.match` with a `$`-anchored pattern.  In Python,
`$` matches at the end of the string *or just before a single trailing
newline*, so each matcher below also accepts its pattern followed by one
final newline character.
-/

/-- Membership in the character class `[A-Z0-9]`. -/
def isUpDigit (c : Char) : Bool :=
  (65 ≤ c.toNat && c.toNat ≤ 90) || (48 ≤ c.toNat && c.toNat ≤ 57)

/-- `re.match` of `^[A-Z0-9]+-[A-Z0-9]+$` against a character list, with
Python's `$` semantics (an optional single trailing newline is accepted). -/
def reMatchSymbol (l : List Char) : Bool :=
  let a := l.takeWhile isUpDigit
  let r := l.dropWhile isUpDigit
  if a = [] then false
  else
    match r with
    | [] => false
    | c :: r2 =>
      if c = Char.ofNat 45 then
        let b := r2.takeWhile isUpDigit
        let r3 := r2.dropWhile isUpDigit
        if b = [] then false
        else
          match r3 with
          | [] => true
          | [c2] => c2 = Char.ofNat 10
          | _ => false
      else false

/-- `validate_symbol`: the input (always a string here) is returned unchanged
when the regex matches, otherwise `ValidationError` is raised. -/
def validate_symbol (s : String) : Except PyErr String :=
  if reMatchSymbol s.data then Except.ok s
  else Except.error (PyErr.validationError "Invalid symbol format. Expected format: XXX-XXX (e.g., BTC-USDT)")

/-- The exact regex of the spec sentence, as a declarative proposition:
`s` is a non-empty run of `[A-Z0-9]`, one hyphen, and another non-empty run,
with nothing else. -/
def SpecSymbolMatch (s : String) : Prop :=
  ∃ a b : List Char, s.data = a ++ Char.ofNat 45 :: b ∧ a ≠ [] ∧ b ≠ [] ∧
    (∀ c ∈ a, isUpDigit c = true) ∧ (∀ c ∈ b, isUpDigit c = true)

/-- Python truthiness of an optional `Decimal` argument (`None` and a zero
decimal are both falsy). -/
def optDecTruthy : Option Decimal → Bool
  | none => false
  | some d => d.pyBool

/-- `validate_quantity` on a string input.  `Decimal(str(quantity))` raises
`decimal.InvalidOperation` on an unparseable string; the `except
(TypeError, ValueError)` clause does not catch that class, so the failure
escapes untyped instead of becoming `ValidationError("Invalid quantity
format")`.  The bound checks are truthiness-guarded, so a bound of zero is
skipped. -/
def validate_quantity (quantity : String) (min_quantity max_quantity : Option Decimal) :
    Except PyErr Decimal :=
  match pyDecimalParse quantity.data with
  | none => Except.error PyErr.invalidOperation
  | some d =>
    if d.ble decZero then Except.error (PyErr.validationError "Quantity must be greater than 0")
    else if (match min_quantity with
             | none => false
             | some m => m.pyBool && d.blt m) then
      Except.error (PyErr.validationError
        ("Quantity must be at least " ++ String.mk ((min_quantity.getD decZero).pyStr)))
    else if (match max_quantity with
             | none => false
             | some m => m.pyBool && m.blt d) then
      Except.error (PyErr.validationError
        ("Quantity must not exceed " ++ String.mk ((max_quantity.getD decZero).pyStr)))
    else Except.ok d

/-- `validate_price`, same structure as `validate_quantity`. -/
def validate_price (price : String) (min_price max_price : Option Decimal) :
    Except PyErr Decimal :=
  match pyDecimalParse price.data with
  | none => Except.error PyErr.invalidOperation
  | some d =>
    if d.ble decZero then Except.error (PyErr.validationError "Price must be greater than 0")
    else if (match min_price with
             | none => false
             | some m => m.pyBool && d.blt m) then
      Except.error (PyErr.validationError
        ("Price must be at least " ++ String.mk ((min_price.getD decZero).pyStr)))
    else if (match max_price with
             | none => false
             | some m => m.pyBool && m.blt d) then
      Except.error (PyErr.validationError
        ("Price must not exceed " ++ String.mk ((max_price.getD decZero).pyStr)))
    else Except.ok d

/-- `validate_leverage`, restricted to integer input (for which `int(...)`
cannot fail). -/
def validate_leverage (leverage : Int) (max_leverage : Int) : Except PyErr Int :=
  if leverage < 1 then Except.error (PyErr.validationError "Leverage must be at least 1")
  else if max_leverage < leverage then
    Except.error (PyErr.validationError ("Leverage must not exceed " ++ toString max_leverage))
  else Except.ok leverage

/-- Membership in the character class `[a-zA-Z0-9_-]`. -/
def isIdChar (c : Char) : Bool :=
  (97 ≤ c.toNat && c.toNat ≤ 122) || (65 ≤ c.toNat && c.toNat ≤ 90) ||
  (48 ≤ c.toNat && c.toNat ≤ 57) || c.toNat = 95 || c.toNat = 45

/-- `re.match` of `^[a-zA-Z0-9_-]{1,36}$` (again with `$` accepting one
trailing newline). -/
def reMatchClientId (l : List Char) : Bool :=
  let a := l.takeWhile isIdChar
  let r := l.dropWhile isIdChar
  (1 ≤ a.length && a.length ≤ 36) &&
  (match r with
   | [] => true
   | [c] => c = Char.ofNat 10
   | _ => false)

/-- `validate_client_order_id` on a string input. -/
def validate_client_order_id (client_order_id : String) : Except PyErr String :=
  if reMatchClientId client_order_id.data then Except.ok client_order_id
  else Except.error (PyErr.validationError
    "Invalid client order ID format. Must be 1-36 characters long and contain only letters, numbers, underscore, and hyphen.")

/-- The raw parameter map handed to `validate_order_params`: every key the
function reads, each optional (`params.get` / `in params`).  String-valued
entries carry strings; the bound entries carry decimals, the leverage
entries integers, `reduce_only` a boolean, as the callers supply them. -/
structure RawParams where
  symbol : Option String := none
  quantity : Option String := none
  side : Option String := none
  price : Option String := none
  min_quantity : Option Decimal := none
  max_quantity : Option Decimal := none
  min_price : Option Decimal := none
  max_price : Option Decimal := none
  leverage : Option Int := none
  max_leverage : Option Int := none
  client_order_id : Option String := none
  time_in_force : Option String := none
  reduce_only : Option Bool := none
deriving DecidableEq, Repr

/-- The `validated` dictionary built by `validate_order_params`. -/
structure ValidatedParams where
  symbol : String
  quantity : Decimal
  side : String
  price : Option Decimal := none
  leverage : Option Int := none
  client_order_id : Option String := none
  time_in_force : Option String := none
  reduce_only : Option Bool := none
deriving DecidableEq, Repr

/-- `validate_order_params`: required-key checks, then symbol, quantity,
side, optional price and leverage validation, then verbatim pass-through of
`client_order_id`, `time_in_force` and `reduce_only`.  Note that
`validate_client_order_id` is never invoked here. -/
def validate_order_params (p : RawParams) : Except PyErr ValidatedParams :=
  match p.symbol with
  | none => Except.error (PyErr.validationError "Missing required parameter: symbol")
  | some sym =>
    match p.quantity with
    | none => Except.error (PyErr.validationError "Missing required parameter: quantity")
    | some qty =>
      match p.side with
      | none => Except.error (PyErr.validationError "Missing required parameter: side")
      | some side =>
        match validate_symbol sym with
        | Except.error e => Except.error e
        | Except.ok vsym =>
          match validate_quantity qty p.min_quantity p.max_quantity with
          | Except.error e => Except.error e
          | Except.ok vqty =>
            if side ≠ "BUY" ∧ side ≠ "SELL" then
              Except.error (PyErr.validationError "Invalid side. Must be BUY or SELL")
            else
              match (match p.price with
                     | none => Except.ok none
                     | some pr => (validate_price pr p.min_price p.max_price).map some) with
              | Except.error e => Except.error e
              | Except.ok vprice =>
                match (match p.leverage with
                       | none => Except.ok none
                       | some lv => (validate_leverage lv (p.max_leverage.getD 100)).map some) with
                | Except.error e => Except.error e
                | Except.ok vlev =>
                  Except.ok
                    { symbol := vsym, quantity := vqty, side := side, price := vprice,
                      leverage := vlev, client_order_id := p.client_order_id,
                      time_in_force := p.time_in_force, reduce_only := p.reduce_only }

/-!
 ## Order lifecycle tracker (src/src/exchange/orders.py)
-/

inductive OrderType where
  | MARKET | LIMIT | STOP_LOSS | TAKE_PROFIT
deriving DecidableEq, Repr

/-- The `.value` string of an `OrderType` member. -/
def OrderType.value : OrderType → String
  | .MARKET => "MARKET"
  | .LIMIT => "LIMIT"
  | .STOP_LOSS => "STOP_LOSS"
  | .TAKE_PROFIT => "TAKE_PROFIT"

inductive OrderSide where
  | BUY | SELL
deriving DecidableEq, Repr

/-- The `.value` string of an `OrderSide` member. -/
def OrderSide.value : OrderSide → String
  | .BUY => "BUY"
  | .SELL => "SELL"

inductive OrderStatus where
  | PENDING | OPEN | FILLED | CANCELLED | REJECTED | EXPIRED
deriving DecidableEq, Repr

/-- The enum constructor `OrderStatus(string)`: `some` member on a known
value string, `none` where Python raises `ValueError`. -/
def OrderStatus.ofString (s : String) : Option OrderStatus :=
  if s = "PENDING" then some .PENDING
  else if s = "OPEN" then some .OPEN
  else if s = "FILLED" then some .FILLED
  else if s = "CANCELLED" then some .CANCELLED
  else if s = "REJECTED" then some .REJECTED
  else if s = "EXPIRED" then some .EXPIRED
  else none

/-- The terminal-status check of `update_order`:
`status in [FILLED, CANCELLED, REJECTED, EXPIRED]`. -/
def OrderStatus.isTerminal : OrderStatus → Bool
  | .FILLED => true
  | .CANCELLED => true
  | .REJECTED => true
  | .EXPIRED => true
  | _ => false

structure OrderParams where
  symbol : String
  side : OrderSide
  order_type : OrderType
  quantity : Decimal
  price : Option Decimal := none
  stop_price : Option Decimal := none
  take_profit_price : Option Decimal := none
  leverage : Option Int := some 1
  time_in_force : String := "GTC"
  reduce_only : Bool := false
  client_order_id : Option String := none
deriving DecidableEq, Repr

structure Order where
  params : OrderParams
  status : OrderStatus := .PENDING
  exchange_order_id : Option String := none
  filled_quantity : Decimal := decZero
  average_fill_price : Option Decimal := none
  last_update_timestamp : Option Int := none
  error_message : Option String := none
deriving DecidableEq, Repr

/-- Python truthiness of an optional string (`None` and `""` are falsy). -/
def optStrTruthy : Option String → Bool
  | none => false
  | some s => s ≠ ""

/-- A value stored in the request-body dictionary built by `to_dict`. -/
inductive JVal where
  | s (v : String)
  | i (v : Int)
  | b (v : Bool)
  | nul
deriving DecidableEq, Repr

/-- First-match lookup in a dictionary modelled as an insertion-ordered
association list. -/
def dictFind (l : List (String × JVal)) (k : String) : Option JVal :=
  (l.find? (fun kv => kv.1 == k)).map (fun kv => kv.2)

/-- `Order.to_dict`: the wire-ready request body.  The three conditional
price-like fields are guarded by truthiness (`if not self.params.price`),
so `None` *and a zero decimal* both raise the `ValueError`. -/
def Order.to_dict (o : Order) : Except PyErr (List (String × JVal)) :=
  let base : List (String × JVal) :=
    [("symbol", JVal.s o.params.symbol),
     ("side", JVal.s o.params.side.value),
     ("orderType", JVal.s o.params.order_type.value),
     ("quantity", JVal.s (String.mk o.params.quantity.pyStr)),
     ("leverage", match o.params.leverage with
                  | some n => JVal.i n
                  | none => JVal.nul),
     ("timeInForce", JVal.s o.params.time_in_force),
     ("reduceOnly", JVal.b o.params.reduce_only)]
  let base2 :=
    if optStrTruthy o.params.client_order_id then
      base ++ [("clientOrderId", JVal.s (o.params.client_order_id.getD ""))]
    else base
  match o.params.order_type with
  | .LIMIT =>
    if optDecTruthy o.params.price = false then
      Except.error (PyErr.valueError "Price is required for LIMIT orders")
    else
      Except.ok (base2 ++ [("price", JVal.s (String.mk ((o.params.price.getD decZero).pyStr)))])
  | .STOP_LOSS =>
    if optDecTruthy o.params.stop_price = false then
      Except.error (PyErr.valueError "Stop price is required for STOP_LOSS orders")
    else
      Except.ok (base2 ++ [("stopPrice", JVal.s (String.mk ((o.params.stop_price.getD decZero).pyStr)))])
  | .TAKE_PROFIT =>
    if optDecTruthy o.params.take_profit_price = false then
      Except.error (PyErr.valueError "Take profit price is required for TAKE_PROFIT orders")
    else
      Except.ok (base2 ++ [("takeProfitPrice", JVal.s (String.mk ((o.params.take_profit_price.getD decZero).pyStr)))])
  | .MARKET => Except.ok base2

/-- The exchange response payload consumed by `update_order`: each key
optional (`.get` / `in` access), decimal fields carried as strings per the
wire format. -/
structure ExchangeData where
  orderId : Option String := none
  status : Option String := none
  fillQuantity : Option String := none
  averagePrice : Option String := none
  timestamp : Option Int := none
  error : Option String := none
deriving DecidableEq, Repr

/-- `Order.update_from_exchange`, as a sequence of field assignments with
the exception surfaced next to the partially-mutated order.  Assignments
happen in source order: `exchange_order_id` first, then `status` (whose enum
construction can raise `ValueError`), then the two presence-guarded decimal
fields (whose parses can raise `decimal.InvalidOperation`), then timestamp
and error message. -/
def Order.update_from_exchange (o : Order) (d : ExchangeData) : Order × Option PyErr :=
  let o1 : Order := { o with exchange_order_id := d.orderId }
  match OrderStatus.ofString (d.status.getD "PENDING") with
  | none => (o1, some (PyErr.valueError ((d.status.getD "PENDING") ++ " is not a valid OrderStatus")))
  | some st =>
    let o2 : Order := { o1 with status := st }
    match d.fillQuantity with
    | some fq =>
      (match pyDecimalParse fq.data with
       | none => (o2, some PyErr.invalidOperation)
       | some q =>
         let o3 : Order := { o2 with filled_quantity := q }
         match d.averagePrice with
         | some ap =>
           (match pyDecimalParse ap.data with
            | none => (o3, some PyErr.invalidOperation)
            | some a =>
              ({ o3 with average_fill_price := some a,
                         last_update_timestamp := d.timestamp,
                         error_message := d.error }, none))
         | none =>
           ({ o3 with last_update_timestamp := d.timestamp, error_message := d.error }, none))
    | none =>
      match d.averagePrice with
      | some ap =>
        (match pyDecimalParse ap.data with
         | none => (o2, some PyErr.invalidOperation)
         | some a =>
           ({ o2 with average_fill_price := some a,
                      last_update_timestamp := d.timestamp,
                      error_message := d.error }, none))
      | none =>
        ({ o2 with last_update_timestamp := d.timestamp, error_message := d.error }, none)

/-- The `active_orders` registry: a Python dict keyed by client order id,
modelled as an insertion-ordered association list with unique keys. -/
abbrev Registry := List (String × Order)

/-- Dict lookup `d.get(k)`. -/
def dictGet (r : Registry) (k : String) : Option Order :=
  (r.find? (fun p => p.1 == k)).map (fun p => p.2)

/-- Dict assignment `d[k] = v`: overwrite in place when the key exists
(keeping insertion order), otherwise append. -/
def dictSet (r : Registry) (k : String) (v : Order) : Registry :=
  if (r.find? (fun p => p.1 == k)).isSome then
    r.map (fun p => if p.1 == k then (k, v) else p)
  else r ++ [(k, v)]

/-- Dict removal `d.pop(k, None)`. -/
def dictPop (r : Registry) (k : String) : Registry :=
  r.filter (fun p => p.1 != k)

/-- `OrderManager.create_order`: build a PENDING order; register it only when
`params.client_order_id` is truthy (so neither `None` nor `""`). -/
def create_order (r : Registry) (params : OrderParams) : Registry × Order :=
  let order : Order := { params := params }
  if optStrTruthy params.client_order_id then
    (dictSet r (params.client_order_id.getD "") order, order)
  else (r, order)

/-- `OrderManager.get_order`. -/
def get_order (r : Registry) (client_order_id : String) : Option Order :=
  dictGet r client_order_id

/-- `OrderManager.update_order`.  The targeted order is mutated in place, so
the registry sees the partially-updated object even when
`update_from_exchange` raises; in that case the exception propagates before
the terminal-status pruning runs. -/
def update_order (r : Registry) (client_order_id : String) (d : ExchangeData) :
    Registry × Option PyErr :=
  match dictGet r client_order_id with
  | none => (r, none)
  | some o =>
    let res := o.update_from_exchange d
    let r1 := dictSet r client_order_id res.1
    match res.2 with
    | some e => (r1, some e)
    | none =>
      if res.1.status.isTerminal then (dictPop r1 client_order_id, none)
      else (r1, none)

/-- `OrderManager.cancel_order`: mark CANCELLED locally, then remove. -/
def cancel_order (r : Registry) (client_order_id : String) : Registry :=
  match dictGet r client_order_id with
  | none => r
  | some o => dictPop (dictSet r client_order_id { o with status := .CANCELLED }) client_order_id

/-- `OrderManager.get_active_orders` in the functional registry model:
`self.active_orders.copy()` returns a fresh dict with the same entries. -/
def get_active_orders (r : Registry) : Registry := r

/-- Registries reachable from a fresh `OrderManager` by sequences of
`create_order`, `update_order` and `cancel_order` calls in which every
`update_order` call completes without raising. -/
inductive ReachableOk : Registry → Prop where
  | empty : ReachableOk []
  | create (r : Registry) (p : OrderParams) :
      ReachableOk r → ReachableOk (create_order r p).1
  | update (r : Registry) (cid : String) (d : ExchangeData) :
      ReachableOk r → (update_order r cid d).2 = none →
      ReachableOk (update_order r cid d).1
  | cancel (r : Registry) (cid : String) :
      ReachableOk r → ReachableOk (cancel_order r cid)

/-!
 ## Heap model for the snapshot claim

`get_active_orders` returns `self.active_orders.copy()` — a *shallow* dict
copy.  To reason about what a caller can reach through it, orders are given
object identity: the tracker state holds a heap of `Order` objects addressed
by references, and the registry maps client ids to references.  The snapshot
is a fresh dict holding the same references.
-/

/-- Object store: reference → `Order` object. -/
abbrev OrderHeap := List (Nat × Order)

/-- Read an order object from the heap. -/
def heapGet (h : OrderHeap) (ref : Nat) : Option Order :=
  (h.find? (fun p => p.1 == ref)).map (fun p => p.2)

/-- Overwrite an order object in the heap (in-place mutation of the
object every holder of `ref` sees). -/
def heapSet (h : OrderHeap) (ref : Nat) (o : Order) : OrderHeap :=
  h.map (fun p => if p.1 == ref then (ref, o) else p)

/-- Tracker state with object identity. -/
structure TrackerState where
  heap : OrderHeap
  active_orders : List (String × Nat)
deriving DecidableEq, Repr

/-- `get_order` in the heap model. -/
def hm_get_order (s : TrackerState) (cid : String) : Option Order :=
  ((s.active_orders.find? (fun p => p.1 == cid)).map (fun p => p.2)).bind (heapGet s.heap)

/-- `get_active_orders` in the heap model: the shallow copy is a fresh dict
whose entries are the same `(client id, object reference)` pairs, so later
key-level mutations of it never touch `s.active_orders`. -/
def hm_get_active_orders (s : TrackerState) : List (String × Nat) :=
  s.active_orders

/-- A caller holding an `Order` reference (for instance one taken out of the
snapshot) mutates that object in place. -/
def callerWriteThroughRef (s : TrackerState) (ref : Nat) (o : Order) : TrackerState :=
  { s with heap := heapSet s.heap ref o }

/-!
 ## Concrete inputs used by counterexamples and witnesses
-/

/-- `Decimal(str)` of `1`. -/
def decOne : Decimal := ⟨false, [1], 0⟩

/-- A plain MARKET order parameter set registered under client id `a`. -/
def exParams : OrderParams :=
  { symbol := "BTC-USDT", side := .BUY, order_type := .MARKET,
    quantity := decOne, client_order_id := some "a" }

/-- An exchange payload reporting a terminal FILLED status together with an
unparseable `fillQuantity` string. -/
def exBadFillPayload : ExchangeData :=
  { status := some "FILLED", fillQuantity := some "abc" }

/-- The registry after `create_order(exParams)` followed by
`update_order("a", exBadFillPayload)` on a fresh manager. -/
def exBadRegistry : Registry :=
  (update_order (create_order [] exParams).1 "a" exBadFillPayload).1

/-- A freshly created PENDING order for the heap-model state. -/
def exHeapOrder : Order :=
  { params := { symbol := "BTC-USDT", side := .BUY, order_type := .MARKET,
                quantity := decOne, client_order_id := some "a" } }

/-- A tracker state owning one registered order object at reference `0`. -/
def exTrackerState : TrackerState :=
  { heap := [(0, exHeapOrder)], active_orders := [("a", 0)] }

/-- The same order object after a caller sets its `status` to CANCELLED. -/
def exMutatedOrder : Order := { exHeapOrder with status := .CANCELLED }

/-- `Decimal("0.123456789")`: a fractional value with nine decimal digits. -/
def exQty : Decimal := ⟨false, [1, 2, 3, 4, 5, 6, 7, 8, 9], -9⟩

/-- `Decimal("49500.123456789")`. -/
def exPrice : Decimal := ⟨false, [4, 9, 5, 0, 0, 1, 2, 3, 4, 5, 6, 7, 8, 9], -9⟩

/-- A LIMIT order carrying the two high-precision decimals above. -/
def exLimitOrder : Order :=
  { params := { symbol := "BTC-USDT", side := .BUY, order_type := .LIMIT,
                quantity := exQty, price := some exPrice } }

/-!
 ## Helper lemmas: digits and scanning
-/

theorem charVal_digitChar {x : Nat} (h : x < 10) : charVal (digitChar x) = x := by
  interval_cases x <;> rfl

theorem isDigitCh_digitChar {x : Nat} (h : x < 10) : isDigitCh (digitChar x) = true := by
  interval_cases x <;> rfl

theorem digitChar_toNat {x : Nat} (h : x < 10) : (digitChar x).toNat = 48 + x := by
  interval_cases x <;> rfl

theorem takeDigits_append {l : List Nat} {r : List Char}
    (hl : ∀ x ∈ l, x < 10)
    (hr : ∀ c, r.head? = some c → isDigitCh c = false) :
    takeDigits (l.map digitChar ++ r) = (l, r) := by
  induction l with
  | nil =>
    simp only [List.map_nil, List.nil_append]
    cases r with
    | nil => rfl
    | cons c cs =>
      have := hr c rfl
      simp [takeDigits, this]
  | cons x xs ih =>
    have hx : x < 10 := hl x (by simp)
    have ihh := ih (fun y hy => hl y (by simp [hy]))
    simp only [List.map_cons, List.cons_append, takeDigits, isDigitCh_digitChar hx, if_pos,
      charVal_digitChar hx, List.append_eq, ihh]

theorem takeDigits_map (l : List Nat) (hl : ∀ x ∈ l, x < 10) :
    takeDigits (l.map digitChar) = (l, []) := by
  have := takeDigits_append (l := l) (r := []) hl (fun c hc => by simp at hc)
  simpa using this

theorem digitsVal_append_singleton (l : List Nat) (d : Nat) :
    digitsVal (l ++ [d]) = digitsVal l * 10 + d := by
  simp [digitsVal, List.foldl_append]

theorem natDigitsRevAux_val {fuel n : Nat} (h : n ≤ fuel) :
    digitsVal (natDigitsRevAux fuel n).reverse = n := by
  induction fuel generalizing n with
  | zero =>
    have : n = 0 := Nat.le_zero.mp h
    simp [natDigitsRevAux, this, digitsVal]
  | succ f ih =>
    by_cases hn : n = 0
    · simp [natDigitsRevAux, hn, digitsVal]
    · have hdiv : n / 10 ≤ f := by
        have : n / 10 < n := Nat.div_lt_self (Nat.pos_of_ne_zero hn) (by norm_num)
        omega
      simp only [natDigitsRevAux, hn, if_neg, List.reverse_cons, ite_false]
      rw [digitsVal_append_singleton, ih hdiv]
      omega

theorem digitsVal_bigDigits (n : Nat) : digitsVal (bigDigits n) = n :=
  natDigitsRevAux_val (Nat.le_refl n)

theorem natDigitsRevAux_lt {fuel n : Nat} : ∀ x ∈ natDigitsRevAux fuel n, x < 10 := by
  induction fuel generalizing n with
  | zero => simp [natDigitsRevAux]
  | succ f ih =>
    intro x hx
    by_cases hn : n = 0
    · simp [natDigitsRevAux, hn] at hx
    · simp only [natDigitsRevAux, hn, ite_false] at hx
      rcases List.mem_cons.mp hx with h | h
      · omega
      · exact ih x h

theorem bigDigits_lt {n : Nat} : ∀ x ∈ bigDigits n, x < 10 := by
  intro x hx
  exact natDigitsRevAux_lt x (List.mem_reverse.mp hx)

theorem bigDigits_ne_nil {n : Nat} (h : n ≠ 0) : bigDigits n ≠ [] := by
  cases n with
  | zero => exact absurd rfl h
  | succ m =>
    simp only [bigDigits, natDigitsRevAux, Nat.succ_ne_zero, ite_false, ne_eq,
      List.reverse_eq_nil_iff]
    simp

theorem normDigits_ne_nil (l : List Nat) : normDigits l ≠ [] := by
  cases h : l.dropWhile (fun d => d == 0) with
  | nil => simp [normDigits, h]
  | cons a as => simp [normDigits, h]

theorem normDigits_zero_cons (l : List Nat) : normDigits (0 :: l) = normDigits l := by
  simp [normDigits, List.dropWhile_cons]

theorem normDigits_replicate_append (k : Nat) (l : List Nat) :
    normDigits (List.replicate k 0 ++ l) = normDigits l := by
  induction k with
  | zero => simp
  | succ m ih =>
    simp only [List.replicate_succ, List.cons_append]
    rw [normDigits_zero_cons, ih]


theorem splitSign_digit {c : Char} {r : List Char} (h : isDigitCh c = true) :
    splitSign (c :: r) = (false, c :: r) := by
  have h1 : c ≠ Char.ofNat 45 := by
    intro he
    rw [he] at h
    exact absurd h (by decide)
  have h2 : c ≠ Char.ofNat 43 := by
    intro he
    rw [he] at h
    exact absurd h (by decide)
  simp [splitSign, h1, h2]

theorem pyStrBody_eq_int {d : Decimal}
    (h1 : d.exp ≤ 0 ∧ -6 < d.exp + d.digits.length) (h2 : d.exp = 0) :
    d.pyStrBody = d.digits.map digitChar := by
  simp only [Decimal.pyStrBody]
  rw [if_pos h1, if_pos h2]

theorem pyStrBody_eq_mid {d : Decimal}
    (h1 : d.exp ≤ 0 ∧ -6 < d.exp + d.digits.length) (h2 : d.exp ≠ 0)
    (h3 : 0 < d.exp + d.digits.length) :
    d.pyStrBody = (d.digits.map digitChar).take (d.exp + d.digits.length).toNat ++
      Char.ofNat 46 :: (d.digits.map digitChar).drop (d.exp + d.digits.length).toNat := by
  simp only [Decimal.pyStrBody]
  rw [if_pos h1, if_neg h2, if_pos h3]

theorem pyStrBody_eq_small {d : Decimal}
    (h1 : d.exp ≤ 0 ∧ -6 < d.exp + d.digits.length) (h2 : d.exp ≠ 0)
    (h3 : ¬ 0 < d.exp + d.digits.length) :
    d.pyStrBody = Char.ofNat 48 :: Char.ofNat 46 ::
      List.replicate (-(d.exp + d.digits.length)).toNat (Char.ofNat 48) ++ d.digits.map digitChar := by
  simp only [Decimal.pyStrBody]
  rw [if_pos h1, if_neg h2, if_neg h3]

theorem pyStrBody_eq_sci1 {d : Decimal}
    (h1 : ¬ (d.exp ≤ 0 ∧ -6 < d.exp + d.digits.length)) (h2 : d.digits.length = 1) :
    d.pyStrBody = d.digits.map digitChar ++ Char.ofNat 69 ::
      ((if d.exp + d.digits.length - 1 < 0 then [Char.ofNat 45] else [Char.ofNat 43]) ++
        (bigDigits (d.exp + d.digits.length - 1).natAbs).map digitChar) := by
  simp only [Decimal.pyStrBody]
  rw [if_neg h1, if_pos h2]

theorem pyStrBody_eq_sci2 {d : Decimal}
    (h1 : ¬ (d.exp ≤ 0 ∧ -6 < d.exp + d.digits.length)) (h2 : d.digits.length ≠ 1) :
    d.pyStrBody = (d.digits.map digitChar).take 1 ++ Char.ofNat 46 ::
      ((d.digits.map digitChar).drop 1 ++ Char.ofNat 69 ::
        ((if d.exp + d.digits.length - 1 < 0 then [Char.ofNat 45] else [Char.ofNat 43]) ++
          (bigDigits (d.exp + d.digits.length - 1).natAbs).map digitChar)) := by
  simp only [Decimal.pyStrBody]
  rw [if_neg h1, if_neg h2]
  simp [List.cons_append, List.append_assoc]

theorem take_pos_cons {α : Type} (a : α) (l : List α) (k : Int) (hk : 0 < k) :
    (a :: l).take k.toNat = a :: l.take (k - 1).toNat := by
  have h : k.toNat = (k - 1).toNat + 1 := by omega
  rw [h, List.take_succ_cons]

theorem pyStrBody_head {d : Decimal} (hne : d.digits ≠ []) (hlt : ∀ x ∈ d.digits, x < 10) :
    ∃ x r, d.pyStrBody = digitChar x :: r ∧ x < 10 := by
  obtain ⟨d0, rest, hd⟩ : ∃ d0 rest, d.digits = d0 :: rest := by
    cases h : d.digits with
    | nil => exact absurd h hne
    | cons a as => exact ⟨a, as, rfl⟩
  have hd0 : d0 < 10 := hlt d0 (by simp [hd])
  by_cases h1 : d.exp ≤ 0 ∧ -6 < d.exp + d.digits.length
  · by_cases h2 : d.exp = 0
    · exact ⟨d0, _, by rw [pyStrBody_eq_int h1 h2, hd]; rfl, hd0⟩
    · by_cases h3 : 0 < d.exp + d.digits.length
      · exact ⟨d0, _, by
          rw [pyStrBody_eq_mid h1 h2 h3, hd]
          simp only [List.map_cons]
          rw [take_pos_cons _ _ _ (hd ▸ h3)]
          rfl, hd0⟩
      · exact ⟨0, _, by rw [pyStrBody_eq_small h1 h2 h3]; rfl, by norm_num⟩
  · by_cases h2 : d.digits.length = 1
    · exact ⟨d0, _, by rw [pyStrBody_eq_sci1 h1 h2, hd]; rfl, hd0⟩
    · exact ⟨d0, _, by rw [pyStrBody_eq_sci2 h1 h2, hd]; rfl, hd0⟩

theorem splitSign_pyStr {d : Decimal} (hne : d.digits ≠ []) (hlt : ∀ x ∈ d.digits, x < 10) :
    splitSign d.pyStr = (d.sign, d.pyStrBody) := by
  obtain ⟨x, r, hb, hx⟩ := pyStrBody_head hne hlt
  cases hs : d.sign with
  | true => simp [Decimal.pyStr, hs, splitSign]
  | false =>
    simp only [Decimal.pyStr, hs, if_neg Bool.false_ne_true, List.nil_append, hb]
    rw [splitSign_digit (isDigitCh_digitChar hx)]

theorem parseExpPart_signed (n : Nat) (hn : n ≠ 0) (neg : Bool) :
    parseExpPart ((if neg then [Char.ofNat 45] else [Char.ofNat 43]) ++
      (bigDigits n).map digitChar) = some (if neg then -(n : Int) else (n : Int)) := by
  have hbig := takeDigits_map (bigDigits n) (fun x hx => bigDigits_lt x hx)
  have hbne : bigDigits n ≠ [] := bigDigits_ne_nil hn
  have h4345 : Char.ofNat 43 ≠ Char.ofNat 45 := by decide
  cases neg with
  | true =>
    simp only [if_pos, List.cons_append, List.nil_append]
    simp [parseExpPart, splitSign, hbig, hbne, digitsVal_bigDigits]
  | false =>
    simp only [if_neg Bool.false_ne_true, List.cons_append, List.nil_append]
    simp [parseExpPart, splitSign, h4345, hbig, hbne, digitsVal_bigDigits]


theorem parseAfterSign_digits {l : List Nat} (hl : ∀ x ∈ l, x < 10) (hne : l ≠ []) :
    parseAfterSign (l.map digitChar) = some (l, 0) := by
  have ht := takeDigits_map l hl
  simp only [parseAfterSign, ht]
  rw [if_neg hne]

theorem parseAfterSign_dot {ip fp : List Nat}
    (hip : ∀ x ∈ ip, x < 10) (hfp : ∀ x ∈ fp, x < 10) (hne : ip ≠ []) :
    parseAfterSign (ip.map digitChar ++ Char.ofNat 46 :: fp.map digitChar) =
      some (ip ++ fp, -(fp.length : Int)) := by
  have htk := takeDigits_append (l := ip) (r := Char.ofNat 46 :: fp.map digitChar) hip
    (fun c hc => by
      simp only [List.head?_cons, Option.some.injEq] at hc
      rw [← hc]
      decide)
  have htq := takeDigits_map fp hfp
  have hcond : ¬ (ip = [] ∧ fp = []) := fun hcon => hne hcon.1
  simp only [parseAfterSign, htk, htq, if_true]
  rw [if_neg hcond]

theorem parseAfterSign_dot_exp {ip fp : List Nat} {tail : List Char} {e : Int}
    (hip : ∀ x ∈ ip, x < 10) (hfp : ∀ x ∈ fp, x < 10) (hne : ip ≠ [])
    (hexp : parseExpPart tail = some e) :
    parseAfterSign (ip.map digitChar ++ Char.ofNat 46 ::
        (fp.map digitChar ++ Char.ofNat 69 :: tail)) =
      some (ip ++ fp, e - fp.length) := by
  have htk := takeDigits_append (l := ip)
    (r := Char.ofNat 46 :: (fp.map digitChar ++ Char.ofNat 69 :: tail)) hip
    (fun c hc => by
      simp only [List.head?_cons, Option.some.injEq] at hc
      rw [← hc]
      decide)
  have htq := takeDigits_append (l := fp) (r := Char.ofNat 69 :: tail) hfp
    (fun c hc => by
      simp only [List.head?_cons, Option.some.injEq] at hc
      rw [← hc]
      decide)
  have hcond : ¬ (ip = [] ∧ fp = []) := fun hcon => hne hcon.1
  have h6946 : ¬ (Char.ofNat 69 = Char.ofNat 46) := by decide
  have h69or : (Char.ofNat 69 = Char.ofNat 69 ∨ Char.ofNat 69 = Char.ofNat 101) := Or.inl rfl
  simp only [parseAfterSign, htk, htq, if_true, true_or]
  rw [if_neg hcond, hexp]
  rfl

theorem parseAfterSign_exp {ip : List Nat} {tail : List Char} {e : Int}
    (hip : ∀ x ∈ ip, x < 10) (hne : ip ≠ [])
    (hexp : parseExpPart tail = some e) :
    parseAfterSign (ip.map digitChar ++ Char.ofNat 69 :: tail) = some (ip, e) := by
  have htk := takeDigits_append (l := ip) (r := Char.ofNat 69 :: tail) hip
    (fun c hc => by
      simp only [List.head?_cons, Option.some.injEq] at hc
      rw [← hc]
      decide)
  have h6946 : ¬ (Char.ofNat 69 = Char.ofNat 46) := by decide
  have h69or : (Char.ofNat 69 = Char.ofNat 69 ∨ Char.ofNat 69 = Char.ofNat 101) := Or.inl rfl
  simp only [parseAfterSign, htk, true_or, if_true]
  rw [if_neg hne, hexp]
  rfl

theorem parseAfterSign_pyStrBody {d : Decimal} (hlt : ∀ x ∈ d.digits, x < 10)
    (hnorm : normDigits d.digits = d.digits) (hne : d.digits ≠ []) :
    ∃ raw, parseAfterSign d.pyStrBody = some (raw, d.exp) ∧ normDigits raw = d.digits := by
  by_cases h1 : d.exp ≤ 0 ∧ -6 < d.exp + d.digits.length
  · by_cases h2 : d.exp = 0
    · refine ⟨d.digits, ?_, hnorm⟩
      rw [pyStrBody_eq_int h1 h2, parseAfterSign_digits hlt hne, h2]
    · by_cases h3 : 0 < d.exp + d.digits.length
      · refine ⟨d.digits, ?_, hnorm⟩
        set n := (d.exp + (d.digits.length : Int)).toNat with hn
        have hnle : (n : Int) = d.exp + d.digits.length := by omega
        have hn0 : n ≠ 0 := by omega
        have hexple : d.exp ≤ 0 := h1.1
        rw [pyStrBody_eq_mid h1 h2 h3, ← List.map_take, ← List.map_drop,
          parseAfterSign_dot (fun x hx => hlt x (List.mem_of_mem_take hx))
            (fun x hx => hlt x (List.mem_of_mem_drop hx))
            (by
              intro hcon
              rcases List.take_eq_nil_iff.mp hcon with h | h
              · exact hn0 h
              · exact hne h)]
        simp only [List.take_append_drop, List.length_drop, Option.some.injEq, Prod.mk.injEq]
        exact ⟨trivial, by omega⟩
      · set k := (-(d.exp + (d.digits.length : Int))).toNat with hk
        have hkeq : (k : Int) = -(d.exp + d.digits.length) := by omega
        refine ⟨0 :: (List.replicate k 0 ++ d.digits), ?_, ?_⟩
        · rw [pyStrBody_eq_small h1 h2 h3]
          have hbody : (Char.ofNat 48 :: Char.ofNat 46 ::
              List.replicate (-(d.exp + (d.digits.length : Int))).toNat (Char.ofNat 48) ++
                d.digits.map digitChar) =
              ([0] : List Nat).map digitChar ++
                Char.ofNat 46 :: (List.replicate k 0 ++ d.digits).map digitChar := by
            rw [List.map_append, List.map_replicate, ← hk]
            rfl
          rw [hbody, parseAfterSign_dot (by norm_num)
            (fun x hx => by
              rcases List.mem_append.mp hx with h | h
              · have := (List.mem_replicate.mp h).2
                omega
              · exact hlt x h)
            (List.cons_ne_nil 0 [])]
          simp only [List.length_append, List.length_replicate, Option.some.injEq,
            Prod.mk.injEq, List.singleton_append]
          exact ⟨trivial, by omega⟩
        · rw [normDigits_zero_cons, normDigits_replicate_append]
          exact hnorm
  · have hlen1 : 1 ≤ d.digits.length := by
      cases hdig : d.digits with
      | nil => exact absurd hdig hne
      | cons a as => simp [hdig]
    have hA0 : (d.exp + (d.digits.length : Int) - 1).natAbs ≠ 0 := by omega
    have hexpT : parseExpPart ([Char.ofNat 45] ++
        (bigDigits (d.exp + (d.digits.length : Int) - 1).natAbs).map digitChar) =
        some (-((d.exp + (d.digits.length : Int) - 1).natAbs : Int)) := by
      simpa using parseExpPart_signed (d.exp + (d.digits.length : Int) - 1).natAbs hA0 true
    have hexpF : parseExpPart ([Char.ofNat 43] ++
        (bigDigits (d.exp + (d.digits.length : Int) - 1).natAbs).map digitChar) =
        some (((d.exp + (d.digits.length : Int) - 1).natAbs : Int)) := by
      simpa using parseExpPart_signed (d.exp + (d.digits.length : Int) - 1).natAbs hA0 false
    by_cases h2 : d.digits.length = 1
    · refine ⟨d.digits, ?_, hnorm⟩
      rw [pyStrBody_eq_sci1 h1 h2]
      by_cases hneg : d.exp + (d.digits.length : Int) - 1 < 0
      · rw [if_pos hneg, parseAfterSign_exp hlt hne hexpT]
        simp only [Option.some.injEq, Prod.mk.injEq]
        exact ⟨trivial, by omega⟩
      · rw [if_neg hneg, parseAfterSign_exp hlt hne hexpF]
        simp only [Option.some.injEq, Prod.mk.injEq]
        exact ⟨trivial, by omega⟩
    · refine ⟨d.digits, ?_, hnorm⟩
      rw [pyStrBody_eq_sci2 h1 h2, ← List.map_take, ← List.map_drop]
      have htake1 : List.take 1 d.digits ≠ [] := by
        intro hcon
        rcases List.take_eq_nil_iff.mp hcon with h | h
        · exact absurd h (by norm_num)
        · exact hne h
      by_cases hneg : d.exp + (d.digits.length : Int) - 1 < 0
      · rw [if_pos hneg, parseAfterSign_dot_exp
          (fun x hx => hlt x (List.mem_of_mem_take hx))
          (fun x hx => hlt x (List.mem_of_mem_drop hx)) htake1 hexpT]
        simp only [List.take_append_drop, List.length_drop, Option.some.injEq, Prod.mk.injEq]
        exact ⟨trivial, by omega⟩
      · rw [if_neg hneg, parseAfterSign_dot_exp
          (fun x hx => hlt x (List.mem_of_mem_take hx))
          (fun x hx => hlt x (List.mem_of_mem_drop hx)) htake1 hexpF]
        simp only [List.take_append_drop, List.length_drop, Option.some.injEq, Prod.mk.injEq]
        exact ⟨trivial, by omega⟩

theorem pyDecimalParse_pyStr {d : Decimal} (hwf : d.Wf) :
    pyDecimalParse d.pyStr = some d := by
  obtain ⟨hlt, hnorm⟩ := hwf
  have hne : d.digits ≠ [] := hnorm ▸ normDigits_ne_nil d.digits
  obtain ⟨raw, hparse, hraw⟩ := parseAfterSign_pyStrBody hlt hnorm hne
  simp only [pyDecimalParse, splitSign_pyStr hne hlt, hparse, Option.map_some', hraw]

/-!
 ## Helper lemmas: decimal values and Python comparisons
-/

theorem ten_zpow_pos (e : Int) : (0:ℚ) < (10:ℚ) ^ e := zpow_pos (by norm_num) e

theorem scaled_cast {d : Decimal} {e : Int} (he : e ≤ d.exp) :
    ((d.scaled e : Int) : ℚ) = d.toRat * (10:ℚ) ^ (-e) := by
  have hnn : (0:Int) ≤ d.exp - e := by omega
  have hcast : ((10:ℚ)) ^ ((d.exp - e).toNat) = (10:ℚ) ^ ((d.exp : Int) - e) := by
    rw [← zpow_natCast, Int.toNat_of_nonneg hnn]
  have hsplit : (10:ℚ) ^ ((d.exp : Int) - e) = (10:ℚ) ^ d.exp * (10:ℚ) ^ (-e) := by
    rw [← zpow_add₀ (by norm_num : (10:ℚ) ≠ 0)]
    ring_nf
  unfold Decimal.scaled Decimal.toRat
  cases hs : d.sign <;>
    simp only [Bool.false_eq_true, if_false, if_true] <;>
    push_cast <;>
    rw [hcast, hsplit] <;>
    ring

theorem ble_iff (a b : Decimal) : a.ble b = true ↔ a.toRat ≤ b.toRat := by
  unfold Decimal.ble
  rw [decide_eq_true_iff]
  constructor
  · intro h
    have hq : ((a.scaled (min a.exp b.exp) : Int) : ℚ) ≤ ((b.scaled (min a.exp b.exp) : Int) : ℚ) :=
      Int.cast_le.mpr h
    rw [scaled_cast (min_le_left a.exp b.exp), scaled_cast (min_le_right a.exp b.exp)] at hq
    exact le_of_mul_le_mul_right hq (ten_zpow_pos _)
  · intro h
    have hq := mul_le_mul_of_nonneg_right h (le_of_lt (ten_zpow_pos (-(min a.exp b.exp))))
    rw [← scaled_cast (min_le_left a.exp b.exp), ← scaled_cast (min_le_right a.exp b.exp)] at hq
    exact_mod_cast hq

theorem blt_iff (a b : Decimal) : a.blt b = true ↔ a.toRat < b.toRat := by
  unfold Decimal.blt
  rw [decide_eq_true_iff]
  constructor
  · intro h
    have hq : ((a.scaled (min a.exp b.exp) : Int) : ℚ) < ((b.scaled (min a.exp b.exp) : Int) : ℚ) := by
      exact_mod_cast h
    rw [scaled_cast (min_le_left a.exp b.exp), scaled_cast (min_le_right a.exp b.exp)] at hq
    exact lt_of_mul_lt_mul_right hq (le_of_lt (ten_zpow_pos _))
  · intro h
    have hq := mul_lt_mul_of_pos_right h (ten_zpow_pos (-(min a.exp b.exp)))
    rw [← scaled_cast (min_le_left a.exp b.exp), ← scaled_cast (min_le_right a.exp b.exp)] at hq
    exact_mod_cast hq

theorem pyBool_iff (d : Decimal) : d.pyBool = true ↔ d.toRat ≠ 0 := by
  unfold Decimal.pyBool Decimal.toRat
  rw [decide_eq_true_iff]
  constructor
  · intro h
    have hc : ((digitsVal d.digits : ℚ)) ≠ 0 := by exact_mod_cast h
    have hz : (10:ℚ) ^ d.exp ≠ 0 := ne_of_gt (ten_zpow_pos d.exp)
    cases hs : d.sign <;> simp [hs, hc, hz]
  · intro h hcon
    apply h
    rw [hcon]
    simp

theorem toRat_decZero : decZero.toRat = 0 := by
  simp [Decimal.toRat, decZero, digitsVal]

/-!
 ## Helper lemmas: the registry dictionary
-/

theorem find?_map_overwrite (r : Registry) (k k' : String) (v : Order) (hne : k' ≠ k) :
    (r.map (fun p => if p.1 == k then (k, v) else p)).find? (fun p => p.1 == k') =
      r.find? (fun p => p.1 == k') := by
  have hkk' : (k == k') = false := beq_eq_false_iff_ne.mpr (fun hc => hne hc.symm)
  induction r with
  | nil => rfl
  | cons a as ih =>
    rw [List.map_cons]
    cases ha : (a.1 == k) with
    | true =>
      have ha' : (a.1 == k') = false := by
        rw [beq_iff_eq] at ha
        rw [ha]
        exact hkk'
      simp only [ha, if_true, List.find?_cons, hkk', ha', cond_false]
      exact ih
    | false =>
      simp only [ha, if_false, List.find?_cons, Bool.false_eq_true]
      cases hak' : (a.1 == k') with
      | true => rfl
      | false => exact ih

theorem find?_append_singleton (r : Registry) (k k' : String) (v : Order) (hne : k' ≠ k) :
    (r ++ [(k, v)]).find? (fun p => p.1 == k') = r.find? (fun p => p.1 == k') := by
  have hkk' : (k == k') = false := beq_eq_false_iff_ne.mpr (fun hc => hne hc.symm)
  rw [List.find?_append]
  have h1 : List.find? (fun p => p.1 == k') [(k, v)] = none := by
    simp only [List.find?_cons, hkk', cond_false, List.find?_nil]
  rw [h1, Option.or_none]

theorem find?_filter_pop (r : Registry) (k k' : String) (hne : k' ≠ k) :
    (r.filter (fun p => p.1 != k)).find? (fun p => p.1 == k') =
      r.find? (fun p => p.1 == k') := by
  induction r with
  | nil => rfl
  | cons a as ih =>
    rw [List.filter_cons]
    cases hak : (a.1 != k) with
    | true =>
      simp only [if_true]
      simp only [List.find?_cons]
      cases hak' : (a.1 == k') with
      | true => rfl
      | false => exact ih
    | false =>
      simp only [Bool.false_eq_true, if_false]
      have hak2 : a.1 = k := by
        simpa [bne_iff_ne] using hak
      have hak' : (a.1 == k') = false := by
        rw [hak2]
        exact beq_eq_false_iff_ne.mpr (fun hc => hne hc.symm)
      rw [ih]
      simp only [List.find?_cons, hak', cond_false]

theorem dictGet_set_self (r : Registry) (k : String) (v : Order) :
    dictGet (dictSet r k v) k = some v := by
  unfold dictGet dictSet
  by_cases h : (r.find? (fun p => p.1 == k)).isSome
  · rw [if_pos h]
    induction r with
    | nil => simp at h
    | cons a as ih =>
      rw [List.map_cons]
      cases ha : (a.1 == k) with
      | true =>
        simp only [ha, if_true, List.find?_cons, beq_self_eq_true, cond_true]
        rfl
      | false =>
        simp only [List.find?_cons, ha, cond_false] at h
        simp only [ha, Bool.false_eq_true, if_false, List.find?_cons, cond_false]
        exact ih h
  · rw [if_neg h]
    rw [Option.not_isSome_iff_eq_none] at h
    rw [List.find?_append, h, Option.none_or]
    simp only [List.find?_cons, beq_self_eq_true, cond_true]
    rfl

theorem dictGet_set_ne (r : Registry) (k k' : String) (v : Order) (hne : k' ≠ k) :
    dictGet (dictSet r k v) k' = dictGet r k' := by
  unfold dictGet dictSet
  by_cases h : (r.find? (fun p => p.1 == k)).isSome
  · rw [if_pos h, find?_map_overwrite r k k' v hne]
  · rw [if_neg h, find?_append_singleton r k k' v hne]

theorem dictGet_pop_self (r : Registry) (k : String) :
    dictGet (dictPop r k) k = none := by
  unfold dictGet dictPop
  rw [Option.map_eq_none', List.find?_eq_none]
  intro x hx
  have hmem := (List.mem_filter.mp hx).2
  simp only [bne_iff_ne, ne_eq] at hmem
  simp only [beq_iff_eq]
  exact hmem

theorem dictGet_pop_ne (r : Registry) (k k' : String) (hne : k' ≠ k) :
    dictGet (dictPop r k) k' = dictGet r k' := by
  unfold dictGet dictPop
  rw [find?_filter_pop r k k' hne]

theorem dictGet_mem {r : Registry} {k : String} {o : Order} (h : dictGet r k = some o) :
    (k, o) ∈ r := by
  unfold dictGet at h
  rw [Option.map_eq_some'] at h
  obtain ⟨p, hp, hpo⟩ := h
  have hmem := List.mem_of_find?_eq_some hp
  have hkey := List.find?_some hp
  rw [beq_iff_eq] at hkey
  have hpe : p = (k, o) := by
    obtain ⟨p1, p2⟩ := p
    simp only at hkey hpo
    rw [hkey, hpo]
  rw [← hpe]
  exact hmem

theorem mem_dictSet {r : Registry} {k : String} {v : Order} {e : String × Order}
    (h : e ∈ dictSet r k v) : e = (k, v) ∨ e ∈ r := by
  unfold dictSet at h
  by_cases hp : (r.find? (fun p => p.1 == k)).isSome
  · rw [if_pos hp] at h
    rw [List.mem_map] at h
    obtain ⟨p, hpr, hpe⟩ := h
    by_cases hpk : (p.1 == k) = true
    · left
      rw [← hpe, if_pos hpk]
    · right
      rw [← hpe, if_neg hpk]
      exact hpr
  · rw [if_neg hp] at h
    rcases List.mem_append.mp h with h | h
    · right
      exact h
    · left
      simpa using h

theorem mem_dictPop {r : Registry} {k : String} {e : String × Order}
    (h : e ∈ dictPop r k) : e ∈ r :=
  (List.mem_filter.mp h).1

/-!
 ## Helper lemmas: reachable registries
-/

theorem reachable_no_terminal {r : Registry} (hr : ReachableOk r) :
    ∀ k o, dictGet r k = some o → o.status.isTerminal = false := by
  induction hr with
  | empty =>
    intro k o h
    simp [dictGet] at h
  | create r' p hr' ih =>
    intro k o h
    unfold create_order at h
    by_cases ht : optStrTruthy p.client_order_id = true
    · simp only [ht, if_true] at h
      by_cases hk : k = p.client_order_id.getD ""
      · subst hk
        rw [dictGet_set_self] at h
        cases h
        rfl
      · rw [dictGet_set_ne _ _ _ _ hk] at h
        exact ih k o h
    · simp only [Bool.not_eq_true] at ht
      simp only [ht, Bool.false_eq_true, if_false] at h
      exact ih k o h
  | update r' cid d hr' hok ih =>
    intro k o h
    unfold update_order at h hok
    cases hg : dictGet r' cid with
    | none =>
      rw [hg] at h
      exact ih k o h
    | some o0 =>
      rw [hg] at h hok
      simp only at h hok
      cases herr : (o0.update_from_exchange d).2 with
      | some e =>
        rw [herr] at hok
        simp at hok
      | none =>
        rw [herr] at h
        by_cases hterm : (o0.update_from_exchange d).1.status.isTerminal = true
        · rw [if_pos hterm] at h
          by_cases hk : k = cid
          · subst hk
            rw [dictGet_pop_self] at h
            cases h
          · rw [dictGet_pop_ne _ _ _ hk, dictGet_set_ne _ _ _ _ hk] at h
            exact ih k o h
        · rw [if_neg hterm] at h
          by_cases hk : k = cid
          · subst hk
            rw [dictGet_set_self] at h
            cases h
            simpa using hterm
          · rw [dictGet_set_ne _ _ _ _ hk] at h
            exact ih k o h
  | cancel r' cid hr' ih =>
    intro k o h
    unfold cancel_order at h
    cases hg : dictGet r' cid with
    | none =>
      rw [hg] at h
      exact ih k o h
    | some o0 =>
      rw [hg] at h
      by_cases hk : k = cid
      · subst hk
        rw [dictGet_pop_self] at h
        cases h
      · rw [dictGet_pop_ne _ _ _ hk, dictGet_set_ne _ _ _ _ hk] at h
        exact ih k o h

theorem reachable_keys_truthy {r : Registry} (hr : ReachableOk r) :
    ∀ e ∈ r, e.1 ≠ "" := by
  induction hr with
  | empty =>
    intro e he
    simp at he
  | create r' p hr' ih =>
    intro e he
    unfold create_order at he
    by_cases ht : optStrTruthy p.client_order_id = true
    · simp only [ht, if_true] at he
      rcases mem_dictSet he with he | he
      · rw [he]
        unfold optStrTruthy at ht
        cases hc : p.client_order_id with
        | none =>
          rw [hc] at ht
          simp at ht
        | some s =>
          rw [hc] at ht
          simp only [decide_eq_true_iff] at ht
          simpa [hc] using ht
      · exact ih e he
    · simp only [Bool.not_eq_true] at ht
      simp only [ht, Bool.false_eq_true, if_false] at he
      exact ih e he
  | update r' cid d hr' hok ih =>
    intro e he
    unfold update_order at he
    cases hg : dictGet r' cid with
    | none =>
      rw [hg] at he
      exact ih e he
    | some o0 =>
      have hcid : cid ≠ "" := ih (cid, o0) (dictGet_mem hg)
      rw [hg] at he
      simp only at he
      cases herr : (o0.update_from_exchange d).2 with
      | some er =>
        rw [herr] at he
        simp only at he
        rcases mem_dictSet he with he | he
        · rw [he]
          exact hcid
        · exact ih e he
      | none =>
        rw [herr] at he
        by_cases hterm : (o0.update_from_exchange d).1.status.isTerminal = true
        · rw [if_pos hterm] at he
          rcases mem_dictSet (mem_dictPop he) with he | he
          · rw [he]
            exact hcid
          · exact ih e he
        · rw [if_neg hterm] at he
          rcases mem_dictSet he with he | he
          · rw [he]
            exact hcid
          · exact ih e he
  | cancel r' cid hr' ih =>
    intro e he
    unfold cancel_order at he
    cases hg : dictGet r' cid with
    | none =>
      rw [hg] at he
      exact ih e he
    | some o0 =>
      have hcid : cid ≠ "" := ih (cid, o0) (dictGet_mem hg)
      rw [hg] at he
      rcases mem_dictSet (mem_dictPop he) with he | he
      · rw [he]
        exact hcid
      · exact ih e he

theorem dictGet_empty_key {r : Registry} (hinv : ∀ e ∈ r, e.1 ≠ "") :
    dictGet r "" = none := by
  unfold dictGet
  rw [Option.map_eq_none', List.find?_eq_none]
  intro x hx
  simp only [beq_iff_eq]
  exact hinv x hx

/-!
 ## Helper lemmas: the symbol regex matcher
-/

theorem takeWhile_append_of {p : Char → Bool} {a r : List Char}
    (ha : ∀ c ∈ a, p c = true) (hr : ∀ c, r.head? = some c → p c = false) :
    (a ++ r).takeWhile p = a ∧ (a ++ r).dropWhile p = r := by
  induction a with
  | nil =>
    simp only [List.nil_append]
    cases r with
    | nil => simp
    | cons c cs =>
      have hc := hr c rfl
      simp [List.takeWhile_cons, List.dropWhile_cons, hc]
  | cons x xs ih =>
    have hx := ha x (by simp)
    have ih2 := ih (fun c hc => ha c (by simp [hc]))
    simp [List.takeWhile_cons, List.dropWhile_cons, hx, ih2.1, ih2.2]

theorem reMatchSymbol_spec (l : List Char) :
    reMatchSymbol l = true ↔
      (∃ a b : List Char, l = a ++ Char.ofNat 45 :: b ∧ a ≠ [] ∧ b ≠ [] ∧
        (∀ c ∈ a, isUpDigit c = true) ∧ (∀ c ∈ b, isUpDigit c = true)) ∨
      (∃ t : List Char, l = t ++ [Char.ofNat 10] ∧
        ∃ a b : List Char, t = a ++ Char.ofNat 45 :: b ∧ a ≠ [] ∧ b ≠ [] ∧
          (∀ c ∈ a, isUpDigit c = true) ∧ (∀ c ∈ b, isUpDigit c = true)) := by
  constructor
  · intro h
    unfold reMatchSymbol at h
    have hl := (List.takeWhile_append_dropWhile isUpDigit l).symm
    have hamem : ∀ c ∈ l.takeWhile isUpDigit, isUpDigit c = true :=
      fun c hc => List.mem_takeWhile_imp hc
    by_cases hane : l.takeWhile isUpDigit = []
    · rw [if_pos hane] at h
      simp at h
    rw [if_neg hane] at h
    cases hdrop : l.dropWhile isUpDigit with
    | nil =>
      rw [hdrop] at h
      simp at h
    | cons c r2 =>
      rw [hdrop] at h
      simp only at h
      by_cases hc45 : c = Char.ofNat 45
      case neg =>
        rw [if_neg hc45] at h
        simp at h
      rw [if_pos hc45] at h
      have hbmem : ∀ c ∈ r2.takeWhile isUpDigit, isUpDigit c = true :=
        fun c hc => List.mem_takeWhile_imp hc
      have hr2 := (List.takeWhile_append_dropWhile isUpDigit r2).symm
      by_cases hbne : r2.takeWhile isUpDigit = []
      · rw [if_pos hbne] at h
        simp at h
      rw [if_neg hbne] at h
      cases hdrop2 : r2.dropWhile isUpDigit with
      | nil =>
        left
        refine ⟨l.takeWhile isUpDigit, r2.takeWhile isUpDigit, ?_, hane, hbne, hamem, hbmem⟩
        rw [hdrop2, List.append_nil] at hr2
        conv_lhs => rw [hl, hdrop, hc45, hr2]
      | cons c2 r4 =>
        rw [hdrop2] at h
        cases r4 with
        | nil =>
          right
          have hc2 : c2 = Char.ofNat 10 := by
            simpa using h
          refine ⟨l.takeWhile isUpDigit ++ Char.ofNat 45 :: r2.takeWhile isUpDigit, ?_,
            l.takeWhile isUpDigit, r2.takeWhile isUpDigit, rfl, hane, hbne, hamem, hbmem⟩
          rw [hdrop2, hc2] at hr2
          conv_lhs => rw [hl, hdrop, hc45, hr2]
          simp
        | cons c3 r5 =>
          simp at h
  · intro h
    have h45 : ∀ c, (Char.ofNat 45 :: ([] : List Char)).head? = some c → isUpDigit c = false := by
      intro c hc
      simp only [List.head?_cons, Option.some.injEq] at hc
      rw [← hc]
      decide
    rcases h with ⟨a, b, hsplit, hane, hbne, hamem, hbmem⟩ | ⟨t, hnl, a, b, hsplit, hane, hbne, hamem, hbmem⟩
    · have hout := takeWhile_append_of (p := isUpDigit) (a := a) (r := Char.ofNat 45 :: b) hamem
        (fun c hc => by
          simp only [List.head?_cons, Option.some.injEq] at hc
          rw [← hc]
          decide)
      have hinner := takeWhile_append_of (p := isUpDigit) (a := b) (r := ([] : List Char)) hbmem
        (fun c hc => by simp at hc)
      rw [List.append_nil] at hinner
      unfold reMatchSymbol
      rw [hsplit, hout.1, hout.2, if_neg hane]
      simp only
      rw [if_pos True.intro, hinner.1, hinner.2, if_neg hbne]
    · have hout := takeWhile_append_of (p := isUpDigit) (a := a)
        (r := Char.ofNat 45 :: (b ++ [Char.ofNat 10])) hamem
        (fun c hc => by
          simp only [List.head?_cons, Option.some.injEq] at hc
          rw [← hc]
          decide)
      have hinner := takeWhile_append_of (p := isUpDigit) (a := b) (r := [Char.ofNat 10]) hbmem
        (fun c hc => by
          simp only [List.head?_cons, Option.some.injEq] at hc
          rw [← hc]
          decide)
      have hlshape : l = a ++ Char.ofNat 45 :: (b ++ [Char.ofNat 10]) := by
        rw [hnl, hsplit]
        simp
      unfold reMatchSymbol
      rw [hlshape, hout.1, hout.2, if_neg hane]
      simp only
      rw [if_pos True.intro, hinner.1, hinner.2, if_neg hbne]
      simp

/-!
 ## Claim theorems
-/

/-- Claim C1 (counterexample): the active-order invariant fails on the code as
claimed.  From an empty registry, `create_order` under id `a` followed by
`update_order("a", status FILLED, fillQuantity "abc")` raises
`decimal.InvalidOperation` *after* the FILLED status has been assigned and
*before* the terminal-status pruning runs, leaving an order with the terminal
status FILLED stored in the registry. -/
theorem c1_counterexample :
    (dictGet exBadRegistry "a").map Order.status = some OrderStatus.FILLED
      ∧ OrderStatus.FILLED.isTerminal = true
      ∧ (update_order (create_order [] exParams).1 "a" exBadFillPayload).2 =
          some PyErr.invalidOperation := by
  refine ⟨?_, rfl, ?_⟩ <;> rfl

/-- Claim C1 (amended): for every registry reachable from an empty tracker by
`create_order`, `update_order` and `cancel_order` calls *in which every
`update_order` call completes without raising an exception*, every stored
order has a non-terminal status (not FILLED, CANCELLED, REJECTED or
EXPIRED). -/
theorem c1_active_orders_nonterminal (r : Registry) (hr : ReachableOk r)
    (cid : String) (o : Order) (hget : dictGet r cid = some o) :
    o.status ≠ OrderStatus.FILLED ∧ o.status ≠ OrderStatus.CANCELLED
      ∧ o.status ≠ OrderStatus.REJECTED ∧ o.status ≠ OrderStatus.EXPIRED := by
  have hnt := reachable_no_terminal hr cid o hget
  cases hso : o.status <;> simp_all [OrderStatus.isTerminal]

/-- Witness for C1: a freshly created order is registered and non-terminal. -/
theorem c1_witness :
    dictGet (create_order [] exParams).1 "a" = some { params := exParams }
      ∧ ({ params := exParams } : Order).status ≠ OrderStatus.FILLED := by
  refine ⟨by rfl, ?_⟩
  exact (c1_active_orders_nonterminal (create_order [] exParams).1
    (ReachableOk.create [] exParams ReachableOk.empty) "a" { params := exParams } (by rfl)).1

/-- Claim C4: the claim (and the spec, and the function's own docstring) say
unparseable input fails with the typed `ValidationError` ("InvalidFormat"),
but `Decimal("abc")` raises `decimal.InvalidOperation`, which derives from
`ArithmeticError`, and the `except (TypeError, ValueError)` clause therefore
does not catch it: the failure escapes untyped.  This theorem evaluates both
functions at the failing input `"abc"`. -/
theorem c4_unparseable_escapes_untyped :
    validate_quantity "abc" none none = Except.error PyErr.invalidOperation
      ∧ validate_price "abc" none none = Except.error PyErr.invalidOperation
      ∧ ∀ msg, PyErr.invalidOperation ≠ PyErr.validationError msg := by
  refine ⟨rfl, rfl, ?_⟩
  intro msg h
  cases h

/-- Claim C7 (counterexample): `get_active_orders` returns a *shallow* dict
copy.  The snapshot of the example tracker state holds the same object
reference `0` as the registry; a caller mutating the status of the order
object reached through that reference changes what the tracker's own
`get_order` subsequently reports. -/
theorem c7_counterexample :
    hm_get_active_orders exTrackerState = [("a", 0)]
      ∧ (hm_get_order exTrackerState "a").map Order.status = some OrderStatus.PENDING
      ∧ (hm_get_order (callerWriteThroughRef exTrackerState 0 exMutatedOrder) "a").map
          Order.status = some OrderStatus.CANCELLED := by
  refine ⟨rfl, rfl, ?_⟩
  rfl

/-- Claim C7 (amended): `get_active_orders` returns a snapshot whose entries
equal the current registry's `(client id, order reference)` pairs — the copy
is a fresh dict, so key-level mutations of it never reach the tracker — but
the copy is shallow: mutating an `Order` object reached through a reference
contained in it does change the tracker-observed state, as the example
state shows. -/
theorem c7_snapshot_shallow :
    (∀ s : TrackerState, hm_get_active_orders s = s.active_orders)
      ∧ hm_get_order (callerWriteThroughRef exTrackerState 0 exMutatedOrder) "a" ≠
          hm_get_order exTrackerState "a" := by
  refine ⟨fun s => rfl, ?_⟩
  decide

/-- Claim C8: `update_order` is not atomic on failure.  For a registered
order, a payload whose status string does not name an `OrderStatus` member
makes the call raise `ValueError`, with the order's `exchange_order_id`
already overwritten by the payload's `orderId` (or cleared to `None` when
absent), every other field untouched, and the order still registered. -/
theorem c8_update_not_atomic (r : Registry) (cid : String) (d : ExchangeData)
    (o : Order) (s : String)
    (hreg : dictGet r cid = some o)
    (hs : d.status = some s)
    (hbad : OrderStatus.ofString s = none) :
    update_order r cid d =
      (dictSet r cid { o with exchange_order_id := d.orderId },
        some (PyErr.valueError (s ++ " is not a valid OrderStatus")))
      ∧ dictGet (update_order r cid d).1 cid = some { o with exchange_order_id := d.orderId } := by
  have hupd : o.update_from_exchange d =
      ({ o with exchange_order_id := d.orderId },
        some (PyErr.valueError (s ++ " is not a valid OrderStatus"))) := by
    unfold Order.update_from_exchange
    rw [hs, Option.getD_some, hbad]
  have hmain : update_order r cid d =
      (dictSet r cid { o with exchange_order_id := d.orderId },
        some (PyErr.valueError (s ++ " is not a valid OrderStatus"))) := by
    unfold update_order
    rw [hreg]
    simp only [hupd]
  refine ⟨hmain, ?_⟩
  rw [hmain]
  exact dictGet_set_self r cid _

/-- Witness for C8: concrete failed update leaves the order registered with
its exchange id cleared. -/
theorem c8_witness :
    dictGet (update_order (create_order [] exParams).1 "a" { status := some "BOGUS" }).1 "a" =
      some { params := exParams, exchange_order_id := none } := by
  exact (c8_update_not_atomic (create_order [] exParams).1 "a" { status := some "BOGUS" }
    { params := exParams } "BOGUS" (by rfl) rfl rfl).2

/-- Claim C9: the presence checks in `to_dict` are truthiness tests
(`if not self.params.price`), so a price-like field set to a *zero* decimal
is treated exactly like an absent one: the LIMIT/STOP_LOSS/TAKE_PROFIT
serialisation fails with the missing-field `ValueError`. -/
theorem c9_zero_price_missing (o : Order) (z : Decimal) (hz : z.toRat = 0) :
    (o.params.order_type = OrderType.LIMIT → o.params.price = some z →
      o.to_dict = Except.error (PyErr.valueError "Price is required for LIMIT orders"))
    ∧ (o.params.order_type = OrderType.STOP_LOSS → o.params.stop_price = some z →
      o.to_dict = Except.error (PyErr.valueError "Stop price is required for STOP_LOSS orders"))
    ∧ (o.params.order_type = OrderType.TAKE_PROFIT → o.params.take_profit_price = some z →
      o.to_dict = Except.error (PyErr.valueError "Take profit price is required for TAKE_PROFIT orders")) := by
  have hb : z.pyBool = false := by
    rw [← Bool.not_eq_true, pyBool_iff]
    intro hc
    exact hc hz
  refine ⟨?_, ?_, ?_⟩ <;> intro hot hp <;>
    · unfold Order.to_dict
      rw [hot, hp]
      simp [optDecTruthy, hb]

/-- Witness for C9: a LIMIT order whose price is `Decimal("0")`. -/
theorem c9_witness :
    Order.to_dict { params := { symbol := "BTC-USDT", side := OrderSide.BUY, order_type := OrderType.LIMIT, quantity := decOne, price := some decZero } } =
      Except.error (PyErr.valueError "Price is required for LIMIT orders") :=
  (c9_zero_price_missing _ decZero toRat_decZero).1 rfl rfl

/-- Claim C10: an empty-string `client_order_id` is falsy, so `create_order`
constructs and returns the order without registering it: on any reachable
registry the registry is left unchanged and `get_order("")` stays absent,
and `to_dict` omits the `clientOrderId` key from the request body. -/
theorem c10_empty_client_id (r : Registry) (hr : ReachableOk r) (p : OrderParams)
    (hid : p.client_order_id = some "") :
    (create_order r p).1 = r
      ∧ get_order (create_order r p).1 "" = none
      ∧ ∀ body, Order.to_dict (create_order r p).2 = Except.ok body →
          dictFind body "clientOrderId" = none := by
  have htr : optStrTruthy p.client_order_id = false := by
    rw [hid]
    simp [optStrTruthy]
  have hcr : create_order r p = (r, { params := p }) := by
    unfold create_order
    rw [htr]
    simp
  refine ⟨by rw [hcr], ?_, ?_⟩
  · rw [hcr]
    exact dictGet_empty_key (reachable_keys_truthy hr)
  · intro body hbody
    rw [hcr] at hbody
    unfold Order.to_dict at hbody
    simp only [htr, Bool.false_eq_true, if_false] at hbody
    cases ht : p.order_type with
    | MARKET =>
      rw [ht] at hbody
      simp only at hbody
      cases hbody
      rfl
    | LIMIT =>
      rw [ht] at hbody
      simp only at hbody
      by_cases hpr : optDecTruthy p.price = false
      · rw [if_pos hpr] at hbody
        cases hbody
      · rw [if_neg hpr] at hbody
        cases hbody
        rfl
    | STOP_LOSS =>
      rw [ht] at hbody
      simp only at hbody
      by_cases hpr : optDecTruthy p.stop_price = false
      · rw [if_pos hpr] at hbody
        cases hbody
      · rw [if_neg hpr] at hbody
        cases hbody
        rfl
    | TAKE_PROFIT =>
      rw [ht] at hbody
      simp only at hbody
      by_cases hpr : optDecTruthy p.take_profit_price = false
      · rw [if_pos hpr] at hbody
        cases hbody
      · rw [if_neg hpr] at hbody
        cases hbody
        rfl

/-- Witness for C10: a concrete MARKET order with an empty-string client id
is returned but never registered, and its body has no clientOrderId key. -/
theorem c10_witness :
    (create_order [] { symbol := "BTC-USDT", side := OrderSide.BUY, order_type := OrderType.MARKET, quantity := decOne, client_order_id := some "" }).1 = []
      ∧ get_order (create_order [] { symbol := "BTC-USDT", side := OrderSide.BUY, order_type := OrderType.MARKET, quantity := decOne, client_order_id := some "" }).1 "" = none := by
  have h := c10_empty_client_id [] ReachableOk.empty
    { symbol := "BTC-USDT", side := OrderSide.BUY, order_type := OrderType.MARKET, quantity := decOne, client_order_id := some "" } rfl
  exact ⟨h.1, h.2.1⟩

/-- Claim C6: `validate_order_params` copies `client_order_id` into its
result verbatim and never invokes `validate_client_order_id`: whenever the
call succeeds, the output's `client_order_id` equals the input value, with no
condition whatsoever on its format. -/
theorem c6_client_id_passthrough (p : RawParams) (v : String) (out : ValidatedParams)
    (hid : p.client_order_id = some v)
    (hok : validate_order_params p = Except.ok out) :
    out.client_order_id = some v := by
  unfold validate_order_params at hok
  cases hsym : p.symbol with
  | none =>
    rw [hsym] at hok
    cases hok
  | some sym =>
  rw [hsym] at hok
  cases hqty : p.quantity with
  | none =>
    rw [hqty] at hok
    cases hok
  | some qty =>
  rw [hqty] at hok
  cases hside : p.side with
  | none =>
    rw [hside] at hok
    cases hok
  | some side =>
  rw [hside] at hok
  simp only [] at hok
  cases hvs : validate_symbol sym with
  | error e =>
    rw [hvs] at hok
    cases hok
  | ok vsym =>
  rw [hvs] at hok
  cases hvq : validate_quantity qty p.min_quantity p.max_quantity with
  | error e =>
    rw [hvq] at hok
    cases hok
  | ok vqty =>
  rw [hvq] at hok
  simp only [] at hok
  by_cases hsd : side ≠ "BUY" ∧ side ≠ "SELL"
  · rw [if_pos hsd] at hok
    cases hok
  · rw [if_neg hsd] at hok
    cases hvp : (match p.price with
                 | none => Except.ok none
                 | some pr => (validate_price pr p.min_price p.max_price).map some) with
    | error e =>
      rw [hvp] at hok
      cases hok
    | ok vprice =>
    rw [hvp] at hok
    simp only [] at hok
    cases hvl : (match p.leverage with
                 | none => Except.ok (none : Option Int)
                 | some lv => (validate_leverage lv (p.max_leverage.getD 100)).map some) with
    | error e =>
      rw [hvl] at hok
      cases hok
    | ok vlev =>
    rw [hvl] at hok
    simp only [] at hok
    cases hok
    simpa using hid

/-- Witness for C6: the id `bad id!` is rejected by the dedicated
`validate_client_order_id` check, yet `validate_order_params` accepts the
parameter map and passes the id through verbatim. -/
theorem c6_witness :
    validate_client_order_id "bad id!" = Except.error (PyErr.validationError
      "Invalid client order ID format. Must be 1-36 characters long and contain only letters, numbers, underscore, and hyphen.")
      ∧ ∃ out, validate_order_params { symbol := some "BTC-USDT", quantity := some "1.5", side := some "BUY", client_order_id := some "bad id!" } = Except.ok out
          ∧ out.client_order_id = some "bad id!" := by
  constructor
  · rfl
  · refine ⟨_, rfl, ?_⟩
    exact c6_client_id_passthrough
      { symbol := some "BTC-USDT", quantity := some "1.5", side := some "BUY", client_order_id := some "bad id!" }
      "bad id!" _ rfl rfl

/-- Claim C3 (counterexample): `re.match` anchors with `$`, which in Python
also matches just before a single trailing newline, so
`validate_symbol("BTC-USDT\n")` returns its input unchanged even though the
string does not match `^[A-Z0-9]+-[A-Z0-9]+$` exactly. -/
theorem c3_counterexample :
    validate_symbol "BTC-USDT\n" = Except.ok "BTC-USDT\n"
      ∧ ¬ SpecSymbolMatch "BTC-USDT\n" := by
  constructor
  · rfl
  · rintro ⟨a, b, hsplit, hane, hbne, hamem, hbmem⟩
    have hmem : Char.ofNat 10 ∈ "BTC-USDT\n".data := by decide
    rw [hsplit] at hmem
    rcases List.mem_append.mp hmem with h | h
    · have := hamem _ h
      exact absurd this (by decide)
    · rcases List.mem_cons.mp h with h | h
      · exact absurd h (by decide)
      · have := hbmem _ h
        exact absurd this (by decide)

/-- Claim C3 (amended): `validate_symbol` returns its input unchanged exactly
when the input matches `[A-Z0-9]+-[A-Z0-9]+` either exactly or followed by
one final newline (the `$` semantics of Python `re`), and fails with the
`ValidationError` carrying the invalid-format message on every other string —
there is no third outcome. -/
theorem c3_symbol_validation (s : String) :
    (validate_symbol s = Except.ok s ↔
        (SpecSymbolMatch s ∨
          ∃ t : List Char, s.data = t ++ [Char.ofNat 10] ∧ SpecSymbolMatch (String.mk t)))
      ∧ (validate_symbol s = Except.ok s ∨
          validate_symbol s = Except.error (PyErr.validationError
            "Invalid symbol format. Expected format: XXX-XXX (e.g., BTC-USDT)")) := by
  have hval : validate_symbol s = Except.ok s ↔ reMatchSymbol s.data = true := by
    unfold validate_symbol
    constructor
    · intro h
      by_cases hm : reMatchSymbol s.data = true
      · exact hm
      · rw [if_neg hm] at h
        cases h
    · intro hm
      rw [if_pos hm]
  constructor
  · rw [hval, reMatchSymbol_spec]
    exact Iff.rfl
  · unfold validate_symbol
    by_cases hm : reMatchSymbol s.data = true
    · left
      rw [if_pos hm]
    · right
      rw [if_neg hm]

/-- Claim C2: `to_dict` serialises `quantity` (and `price` for LIMIT orders)
as the exact `str(Decimal)` string, and parsing that string back with the
`Decimal` constructor returns the original decimal unchanged — no precision
loss, for arbitrary positive decimals of any number of digits. -/
theorem c2_decimal_roundtrip (o : Order) (body : List (String × JVal))
    (hwf : o.params.quantity.Wf) (hpos : 0 < o.params.quantity.toRat)
    (hok : o.to_dict = Except.ok body) :
    (dictFind body "quantity" = some (JVal.s (String.mk o.params.quantity.pyStr))
      ∧ pyDecimalParse o.params.quantity.pyStr = some o.params.quantity)
    ∧ ∀ pr : Decimal, o.params.order_type = OrderType.LIMIT → o.params.price = some pr →
        pr.Wf → 0 < pr.toRat →
        dictFind body "price" = some (JVal.s (String.mk pr.pyStr))
          ∧ pyDecimalParse pr.pyStr = some pr := by
  have hqrt := pyDecimalParse_pyStr hwf
  unfold Order.to_dict at hok
  cases ht : o.params.order_type with
  | MARKET =>
    rw [ht] at hok
    simp only [] at hok
    by_cases hcl : optStrTruthy o.params.client_order_id = true
    · rw [if_pos hcl] at hok
      cases hok
      refine ⟨⟨rfl, hqrt⟩, ?_⟩
      intro pr hot hp hwfp hposp
      simp [ht] at hot
    · rw [if_neg hcl] at hok
      cases hok
      refine ⟨⟨rfl, hqrt⟩, ?_⟩
      intro pr hot hp hwfp hposp
      simp [ht] at hot
  | LIMIT =>
    rw [ht] at hok
    simp only [] at hok
    by_cases hpt : optDecTruthy o.params.price = false
    · rw [if_pos hpt] at hok
      cases hok
    · rw [if_neg hpt] at hok
      by_cases hcl : optStrTruthy o.params.client_order_id = true
      · rw [if_pos hcl] at hok
        cases hok
        refine ⟨⟨rfl, hqrt⟩, ?_⟩
        intro pr hot hp hwfp hposp
        rw [hp]
        exact ⟨rfl, pyDecimalParse_pyStr hwfp⟩
      · rw [if_neg hcl] at hok
        cases hok
        refine ⟨⟨rfl, hqrt⟩, ?_⟩
        intro pr hot hp hwfp hposp
        rw [hp]
        exact ⟨rfl, pyDecimalParse_pyStr hwfp⟩
  | STOP_LOSS =>
    rw [ht] at hok
    simp only [] at hok
    by_cases hpt : optDecTruthy o.params.stop_price = false
    · rw [if_pos hpt] at hok
      cases hok
    · rw [if_neg hpt] at hok
      by_cases hcl : optStrTruthy o.params.client_order_id = true
      · rw [if_pos hcl] at hok
        cases hok
        refine ⟨⟨rfl, hqrt⟩, ?_⟩
        intro pr hot hp hwfp hposp
        simp [ht] at hot
      · rw [if_neg hcl] at hok
        cases hok
        refine ⟨⟨rfl, hqrt⟩, ?_⟩
        intro pr hot hp hwfp hposp
        simp [ht] at hot
  | TAKE_PROFIT =>
    rw [ht] at hok
    simp only [] at hok
    by_cases hpt : optDecTruthy o.params.take_profit_price = false
    · rw [if_pos hpt] at hok
      cases hok
    · rw [if_neg hpt] at hok
      by_cases hcl : optStrTruthy o.params.client_order_id = true
      · rw [if_pos hcl] at hok
        cases hok
        refine ⟨⟨rfl, hqrt⟩, ?_⟩
        intro pr hot hp hwfp hposp
        simp [ht] at hot
      · rw [if_neg hcl] at hok
        cases hok
        refine ⟨⟨rfl, hqrt⟩, ?_⟩
        intro pr hot hp hwfp hposp
        simp [ht] at hot

/-- Witness for C2: the nine-digit fraction `0.123456789` and the
fourteen-digit price `49500.123456789` serialise to their exact decimal
strings and parse back unchanged. -/
theorem c2_witness :
    String.mk exQty.pyStr = "0.123456789"
      ∧ ∃ body, exLimitOrder.to_dict = Except.ok body
          ∧ dictFind body "quantity" = some (JVal.s (String.mk exQty.pyStr))
          ∧ pyDecimalParse exQty.pyStr = some exQty
          ∧ dictFind body "price" = some (JVal.s (String.mk exPrice.pyStr))
          ∧ pyDecimalParse exPrice.pyStr = some exPrice := by
  have hwf : exQty.Wf := ⟨by decide, rfl⟩
  have hpos : 0 < exQty.toRat := by
    unfold Decimal.toRat exQty
    simp only [Bool.false_eq_true, if_false, one_mul]
    apply mul_pos
    · norm_num [digitsVal]
    · exact ten_zpow_pos _
  have hwfp : exPrice.Wf := ⟨by decide, rfl⟩
  have hposp : 0 < exPrice.toRat := by
    unfold Decimal.toRat exPrice
    simp only [Bool.false_eq_true, if_false, one_mul]
    apply mul_pos
    · norm_num [digitsVal]
    · exact ten_zpow_pos _
  have h := c2_decimal_roundtrip exLimitOrder _ hwf hpos rfl
  have hp := h.2 exPrice rfl rfl hwfp hposp
  exact ⟨rfl, _, rfl, h.1.1, h.1.2, hp.1, hp.2⟩

/-- Claim C5: for decimal-parseable input, `validate_quantity` fails (with
one of its range-check `ValidationError`s) exactly when the value is ≤ 0, or
below a supplied non-zero min bound, or above a supplied non-zero max bound;
the truthiness-based guards mean a bound of exactly zero is skipped, so a
zero bound rejects nothing. -/
theorem c5_quantity_bounds (q : String) (d : Decimal) (mn mx : Option Decimal)
    (hq : pyDecimalParse q.data = some d) :
    ((∃ e, validate_quantity q mn mx = Except.error e) ↔
      (d.toRat ≤ 0
        ∨ (∃ m, mn = some m ∧ m.toRat ≠ 0 ∧ d.toRat < m.toRat)
        ∨ (∃ m, mx = some m ∧ m.toRat ≠ 0 ∧ m.toRat < d.toRat)))
    ∧ (∀ e, validate_quantity q mn mx = Except.error e →
        e = PyErr.validationError "Quantity must be greater than 0"
          ∨ (∃ m, mn = some m ∧
              e = PyErr.validationError ("Quantity must be at least " ++ String.mk m.pyStr))
          ∨ (∃ m, mx = some m ∧
              e = PyErr.validationError ("Quantity must not exceed " ++ String.mk m.pyStr))) := by
  have hble : d.ble decZero = true ↔ d.toRat ≤ 0 := by
    rw [ble_iff, toRat_decZero]
  have hminC : ∀ m : Decimal, (m.pyBool && d.blt m) = true ↔ (m.toRat ≠ 0 ∧ d.toRat < m.toRat) := by
    intro m
    rw [Bool.and_eq_true, pyBool_iff, blt_iff]
  have hmaxC : ∀ m : Decimal, (m.pyBool && m.blt d) = true ↔ (m.toRat ≠ 0 ∧ m.toRat < d.toRat) := by
    intro m
    rw [Bool.and_eq_true, pyBool_iff, blt_iff]
  unfold validate_quantity
  rw [hq]
  simp only []
  by_cases h1 : d.ble decZero = true
  · rw [if_pos h1]
    refine ⟨⟨fun _ => Or.inl (hble.mp h1), fun _ => ⟨_, rfl⟩⟩, ?_⟩
    intro e he
    cases he
    left
    rfl
  · rw [if_neg h1]
    have h1' : ¬ d.toRat ≤ 0 := fun hc => h1 (hble.mpr hc)
    cases mn with
    | none =>
      simp only [Bool.false_eq_true, if_false]
      cases mx with
      | none =>
        simp only [Bool.false_eq_true, if_false]
        constructor
        · constructor
          · rintro ⟨e, he⟩
            cases he
          · rintro (hc | ⟨m, hm, _⟩ | ⟨m, hm, _⟩)
            · exact absurd hc h1'
            · cases hm
            · cases hm
        · intro e he
          cases he
      | some m =>
        by_cases h3 : (m.pyBool && m.blt d) = true
        · rw [if_pos h3]
          refine ⟨⟨fun _ => Or.inr (Or.inr ⟨m, rfl, (hmaxC m).mp h3⟩), fun _ => ⟨_, rfl⟩⟩, ?_⟩
          intro e he
          cases he
          right
          right
          exact ⟨m, rfl, rfl⟩
        · rw [if_neg h3]
          constructor
          · constructor
            · rintro ⟨e, he⟩
              cases he
            · rintro (hc | ⟨m', hm', _⟩ | ⟨m', hm', hcond⟩)
              · exact absurd hc h1'
              · cases hm'
              · cases hm'
                exact absurd ((hmaxC m).mpr hcond) h3
          · intro e he
            cases he
    | some m =>
      by_cases h2 : (m.pyBool && d.blt m) = true
      · rw [if_pos h2]
        refine ⟨⟨fun _ => Or.inr (Or.inl ⟨m, rfl, (hminC m).mp h2⟩), fun _ => ⟨_, rfl⟩⟩, ?_⟩
        intro e he
        cases he
        right
        left
        exact ⟨m, rfl, rfl⟩
      · rw [if_neg h2]
        cases mx with
        | none =>
          simp only [Bool.false_eq_true, if_false]
          constructor
          · constructor
            · rintro ⟨e, he⟩
              cases he
            · rintro (hc | ⟨m', hm', hcond⟩ | ⟨m', hm', _⟩)
              · exact absurd hc h1'
              · cases hm'
                exact absurd ((hminC m).mpr hcond) h2
              · cases hm'
          · intro e he
            cases he
        | some m2 =>
          by_cases h3 : (m2.pyBool && m2.blt d) = true
          · rw [if_pos h3]
            refine ⟨⟨fun _ => Or.inr (Or.inr ⟨m2, rfl, (hmaxC m2).mp h3⟩), fun _ => ⟨_, rfl⟩⟩, ?_⟩
            intro e he
            cases he
            right
            right
            exact ⟨m2, rfl, rfl⟩
          · rw [if_neg h3]
            constructor
            · constructor
              · rintro ⟨e, he⟩
                cases he
              · rintro (hc | ⟨m', hm', hcond⟩ | ⟨m', hm', hcond⟩)
                · exact absurd hc h1'
                · cases hm'
                  exact absurd ((hminC m).mpr hcond) h2
                · cases hm'
                  exact absurd ((hmaxC m2).mpr hcond) h3
            · intro e he
              cases he

/-- Witness for C5: `validate_quantity("0")` and `validate_quantity("-1")`
both fail with the out-of-range error, while a max bound of exactly zero is
skipped and rejects nothing. -/
theorem c5_witness :
    (∃ e, validate_quantity "0" none none = Except.error e)
      ∧ (∃ e, validate_quantity "-1" none none = Except.error e)
      ∧ validate_quantity "5" none (some decZero) = Except.ok ⟨false, [5], 0⟩ := by
  refine ⟨?_, ?_, by rfl⟩
  · exact ((c5_quantity_bounds "0" decZero none none rfl).1).mpr
      (Or.inl (le_of_eq toRat_decZero))
  · refine ((c5_quantity_bounds "-1" ⟨true, [1], 0⟩ none none rfl).1).mpr (Or.inl ?_)
    have hval : (Decimal.mk true [1] 0).toRat = -1 := by
      norm_num [Decimal.toRat, digitsVal, List.foldl]
    rw [hval]
    norm_num
